import Mathlib

/-!
Shallow embedding of the `image_ffi_project` repository (Rust) in Lean 4,
used to settle the frozen claims about its specification.

Modelling conventions:
* Byte buffers (`*mut c_uchar` viewed as `&mut [u8]`) are modelled as total
  functions `ℕ → ℕ` whose values are intended to be bytes (`< 256`); claims
  that need the byte range state it as a hypothesis.
* `u32` arithmetic of the Rust source is modelled with explicit wrap-around
  modulo `2 ^ 32` (release-profile semantics of `+=` on `u32`).
* `usize` is modelled as 64 bits (the target of the FFI build), so
  `checked_mul` on `usize` fails exactly when the product reaches `2 ^ 64`.
* Rust `f32` values (the weighted-blur kernel) are modelled with Lean
  `Float`.  No claim depends on concrete floating-point values: the claims
  about the weighted blur concern which sample offsets are visited and the
  alpha channel, both of which are float-free.
* FFI aspects of `process_image` (null pointers, the nul-terminated JSON
  parameter string) are modelled by two booleans (pointer-is-null flags) and
  an `Option` of the decoded configuration, mirroring the code's sequence of
  checks; the `serde_json` parse itself is external library code.
-/

/-- Current value of an accumulator after a wrapping `u32` addition
(`acc += v` on `u32`, release semantics). -/
def u32add (a b : ℕ) : ℕ := (a + b) % 2 ^ 32

/-- `usize::checked_mul` on a 64-bit target: `a.checked_mul(b)`. -/
def checkedMul (a b : ℕ) : Option ℕ := if a * b < 2 ^ 64 then some (a * b) else none

/-- The list of integers of the inclusive Rust range `a..=b`, in iteration
order (`a, a+1, …, b`; empty when `a > b`). -/
def intRange (a b : ℤ) : List ℤ :=
  (List.range (b + 1 - a).toNat).map (fun i : ℕ => a + (i : ℤ))

namespace PluginErrors

/-- Crate `plugin_errors`: the status-code enumeration (`#[repr(i32)] enum
PluginError`).  The source under `src/plugin_errors` publishes only `Ok`,
`InvalidParams` and `NullPointer`; the two plugins and the host additionally
reference `SizeIsTooBig` and `Panic`, which are absent from the published
enum (spec §9 flags this).  Modelled from the spec: the enumeration is
append-only, and §3 lists the observed values in the order success,
invalid-parameters, null-pointer, size-too-large, internal-fault, so the two
missing variants are appended with codes 3 and 4. -/
inductive PluginError where
  | Ok
  | InvalidParams
  | NullPointer
  | SizeIsTooBig
  | Panic
deriving DecidableEq

/-- The integer each variant crosses the ABI as (`PluginError::X as i32`).
Codes 0, 1, 2 are fixed by `src/plugin_errors/src/lib.rs`; 3 and 4 are the
spec-modelled append-only extension (see `PluginError`). -/
def PluginError.code : PluginError → Int
  | .Ok => 0
  | .InvalidParams => 1
  | .NullPointer => 2
  | .SizeIsTooBig => 3
  | .Panic => 4

/-- `PluginError::from` of `src/plugin_errors/src/lib.rs`: map a raw code to
a known variant; codes other than 0, 1, 2 map to `none`.  (Named `fromCode`
because `from` is a Lean keyword.) -/
def PluginError.fromCode (code : Int) : Option PluginError :=
  if code = 0 then some .Ok
  else if code = 1 then some .InvalidParams
  else if code = 2 then some .NullPointer
  else none

end PluginErrors

namespace ImageProcessor

open PluginErrors

/-- `AppError` of `src/image_processor/src/error.rs`. -/
inductive AppError where
  | InputFileNotFound (path : String)
  | ParamsFileNotFound (path : String)
  | PluginDirectoryNotFound (path : String)
  | PluginNotFound (name : String)
  | NullPointer
  | PluginInvalidParams
  | PluginUnknownErrorCode (code : Int)
  | PluginPanic
deriving DecidableEq

/-- `AppError::from_plugin_error_code` of `src/image_processor/src/error.rs`:
convert a plugin return code to `some` error, or `none` when the plugin
finished without error.  The Rust match has arms for `Ok`, `InvalidParams`,
`NullPointer`, `Panic` and `None`; it has no `SizeIsTooBig` arm (that
variant is absent from the published enum, spec §9), and `PluginError::from`
never returns `SizeIsTooBig` or `Panic`, so the `SizeIsTooBig` arm below is
unreachable and is present only to totalise the Lean match. -/
def AppError.from_plugin_error_code (code : Int) : Option AppError :=
  match PluginError.fromCode code with
  | some .Ok => none
  | some .InvalidParams => some .PluginInvalidParams
  | some .NullPointer => some .NullPointer
  | some .Panic => some .PluginPanic
  | some .SizeIsTooBig => some (.PluginUnknownErrorCode code)
  | none => some (.PluginUnknownErrorCode code)

end ImageProcessor

namespace BlurPlugin

open PluginErrors

/-- `BlurParams` of `src/blur_plugin/src/lib.rs` (fields `radius: u32`,
`iterations: u32`, `weighted: bool`). -/
structure BlurParams where
  radius : ℕ
  iterations : ℕ
  weighted : Bool
deriving DecidableEq

/-- The bounds test of the box-blur inner loop:
`ky >= 0 && ky < height as isize && kx >= 0 && kx < width as isize`,
for `p = (ky, kx)`. -/
def inBoundsB (w h : ℕ) (p : ℤ × ℤ) : Bool :=
  decide (0 ≤ p.1) && decide (p.1 < (h : ℤ)) && decide (0 ≤ p.2) && decide (p.2 < (w : ℤ))

/-- Byte index of the first channel of the in-bounds pixel `p = (ky, kx)`:
`(ky as usize * width + kx as usize) * 4`. -/
def pixIdx (w : ℕ) (p : ℤ × ℤ) : ℕ := (p.1.toNat * w + p.2.toNat) * 4

/-- The accumulator state of one box-blur pixel: `r_acc`, `g_acc`, `b_acc`,
`count`, all `u32` (values kept `< 2 ^ 32`). -/
structure BoxAcc where
  r_acc : ℕ
  g_acc : ℕ
  b_acc : ℕ
  count : ℕ
deriving DecidableEq

/-- The kernel window of `apply_box_blur` at pixel `(x, y)`: the pairs
`(ky, kx)` visited by
`for ky in (y-radius)..=(y+radius) { for kx in (x-radius)..=(x+radius)`,
in iteration order. -/
def boxWindow (r x y : ℕ) : List (ℤ × ℤ) :=
  (intRange ((y : ℤ) - r) ((y : ℤ) + r)).flatMap (fun ky =>
    (intRange ((x : ℤ) - r) ((x : ℤ) + r)).map (fun kx => (ky, kx)))

/-- The loop body of `apply_box_blur`'s accumulation: skip out-of-bounds
positions, otherwise add the three colour channels and bump `count`. -/
def boxStep (w h : ℕ) (src : ℕ → ℕ) (acc : BoxAcc) (p : ℤ × ℤ) : BoxAcc :=
  if inBoundsB w h p then
    let idx := pixIdx w p
    ⟨u32add acc.r_acc (src idx), u32add acc.g_acc (src (idx + 1)),
      u32add acc.b_acc (src (idx + 2)), u32add acc.count 1⟩
  else acc

/-- The accumulator produced for pixel `(x, y)` by the two nested kernel
loops of `apply_box_blur`. -/
def boxAccum (w h r : ℕ) (src : ℕ → ℕ) (x y : ℕ) : BoxAcc :=
  (boxWindow r x y).foldl (boxStep w h src) ⟨0, 0, 0, 0⟩

/-- Rust `as u8` on an unsigned integer: truncation to the low 8 bits. -/
def u8cast (n : ℕ) : ℕ := n % 256

/-- Channel `c` (0 = red, 1 = green, 2 = blue, 3 = alpha) written by
`apply_box_blur` into `dst` at pixel `(x, y)`:
`dst[out_idx + c] = (acc / count) as u8` for the colours and
`dst[out_idx + 3] = src[out_idx + 3]` for alpha. -/
def boxPixel (w h r : ℕ) (src : ℕ → ℕ) (x y c : ℕ) : ℕ :=
  let acc := boxAccum w h r src x y
  if c = 0 then u8cast (acc.r_acc / acc.count)
  else if c = 1 then u8cast (acc.g_acc / acc.count)
  else if c = 2 then u8cast (acc.b_acc / acc.count)
  else src ((y * w + x) * 4 + 3)

/-- `apply_box_blur` of `src/blur_plugin/src/lib.rs`, as the `dst` buffer it
fills: the nested `y`/`x` loops write every index `i < w*h*4` exactly once,
namely index `(y*w + x)*4 + c` receives `boxPixel w h r src x y c`; indices
past the image keep the scratch buffer's `vec![0u8; …]` zeros. -/
def apply_box_blur (w h r : ℕ) (src : ℕ → ℕ) : ℕ → ℕ :=
  fun i => if i < w * h * 4 then boxPixel w h r src (i / 4 % w) (i / 4 / w) (i % 4) else 0

/-- The sample offsets `(ky, kx)` visited by the application loops of
`apply_weighted_blur`:
`for ky in -radius_i..=radius_i { for kx in -radius_i..=ky`.
Note the inner bound `ky` (a triangular sweep), taken verbatim from the
source. -/
def weightedSampleWindow (r : ℕ) : List (ℤ × ℤ) :=
  (intRange (-(r : ℤ)) r).flatMap (fun ky =>
    (intRange (-(r : ℤ)) ky).map (fun kx => (ky, kx)))

/-- The full square of offsets `(ky, kx)` swept by the kernel-generation
loops of `apply_weighted_blur`:
`for ky in -radius_i..=radius_i { for kx in -radius_i..=radius_i`. -/
def fullSquareWindow (r : ℕ) : List (ℤ × ℤ) :=
  (intRange (-(r : ℤ)) r).flatMap (fun ky =>
    (intRange (-(r : ℤ)) r).map (fun kx => (ky, kx)))

/-- Unnormalised Gaussian weight of offset `p = (ky, kx)`:
`(-(dist_sq / (2.0 * sigma * sigma))).exp()` with
`dist_sq = (kx*kx + ky*ky) as f32` and `sigma = radius as f32 / 2.0`.
(Lean `Float` stands in for Rust `f32`; no claim depends on these values.) -/
def rawWeight (r : ℕ) (p : ℤ × ℤ) : Float :=
  let sigma := r.toFloat / 2.0
  Float.exp (-(Float.ofInt (p.2 * p.2 + p.1 * p.1) / (2.0 * sigma * sigma)))

/-- The running `sum` of all kernel weights, accumulated in the order of the
kernel-generation loops. -/
def kernelSum (r : ℕ) : Float :=
  (fullSquareWindow r).foldl (fun s p => s + rawWeight r p) 0.0

/-- A normalised kernel entry (`*w /= sum`). -/
def normWeight (r : ℕ) (p : ℤ × ℤ) : Float := rawWeight r p / kernelSum r

/-- `(v).clamp(0, n as isize - 1) as usize` — edge clamping of a sample
coordinate. -/
def clampToGrid (v : ℤ) (n : ℕ) : ℕ := (min (max v 0) ((n : ℤ) - 1)).toNat

/-- The loop body of `apply_weighted_blur`'s accumulation at pixel `(x, y)`:
clamp the sample position to the image, look up the normalised weight, and
add the weighted colour channels to the three `f32` accumulators. -/
def wStep (w h r : ℕ) (src : ℕ → ℕ) (x y : ℕ)
    (acc : Float × Float × Float) (p : ℤ × ℤ) : Float × Float × Float :=
  let py := clampToGrid ((y : ℤ) + p.1) h
  let px := clampToGrid ((x : ℤ) + p.2) w
  let weight := normWeight r p
  let idx := (py * w + px) * 4
  (acc.1 + (src idx).toFloat * weight,
    acc.2.1 + (src (idx + 1)).toFloat * weight,
    acc.2.2 + (src (idx + 2)).toFloat * weight)

/-- Rust `f.round() as u8` (Lean's `Float.toUInt8` saturates to `[0, 255]`
and maps NaN to 0, like a Rust float-to-integer `as` cast). -/
def f32_to_u8 (v : Float) : ℕ := v.round.toUInt8.toNat

/-- Channel `c` written by `apply_weighted_blur` into `dst` at pixel
`(x, y)`; the colour channels come from the triangular accumulation, alpha
is `src[out_idx + 3]`. -/
def weightedPixel (w h r : ℕ) (src : ℕ → ℕ) (x y c : ℕ) : ℕ :=
  let acc := (weightedSampleWindow r).foldl (wStep w h r src x y) (0.0, 0.0, 0.0)
  if c = 0 then f32_to_u8 acc.1
  else if c = 1 then f32_to_u8 acc.2.1
  else if c = 2 then f32_to_u8 acc.2.2
  else src ((y * w + x) * 4 + 3)

/-- `apply_weighted_blur` of `src/blur_plugin/src/lib.rs`, as the `dst`
buffer it fills (same index layout as `apply_box_blur`). -/
def apply_weighted_blur (w h r : ℕ) (src : ℕ → ℕ) : ℕ → ℕ :=
  fun i => if i < w * h * 4 then weightedPixel w h r src (i / 4 % w) (i / 4 / w) (i % 4) else 0

/-- One iteration of the blur loop of `process_image`: run the selected blur
into the scratch buffer, then `pixels.copy_from_slice(&buffer)` — so the
first `w*h*4` bytes become the blur output and nothing else changes. -/
def blurStep (config : BlurParams) (w h : ℕ) (px : ℕ → ℕ) : ℕ → ℕ :=
  fun i =>
    if i < w * h * 4 then
      if config.weighted then apply_weighted_blur w h config.radius px i
      else apply_box_blur w h config.radius px i
    else px i

/-- `for _ in 0..iterations { … }`: iterate `blurStep` `n` times. -/
def blurLoop (config : BlurParams) (w h : ℕ) : ℕ → (ℕ → ℕ) → (ℕ → ℕ)
  | 0, px => px
  | n + 1, px => blurLoop config w h n (blurStep config w h px)

/-- The checked buffer size of both plugins:
`(width as usize).checked_mul(height as usize).and_then(|res| res.checked_mul(4))`. -/
def dataSize (w h : ℕ) : Option ℕ := (checkedMul w h).bind (fun res => checkedMul res 4)

/-- `process_image` of `src/blur_plugin/src/lib.rs`, modelled from the
null-pointer check on: `rgbaNull`/`paramsNull` are the two pointer-is-null
flags, `parsed` is the result of the `serde_json` decode of the parameter
string, `px` the pixel buffer.  Returns the status code and the buffer
contents after the call. -/
def process_image (w h : ℕ) (rgbaNull paramsNull : Bool)
    (parsed : Option BlurParams) (px : ℕ → ℕ) : Int × (ℕ → ℕ) :=
  if rgbaNull || paramsNull then (PluginError.NullPointer.code, px)
  else
    match parsed with
    | none => (PluginError.InvalidParams.code, px)
    | some config =>
      if config.radius = 0 ∨ config.iterations = 0 then (PluginError.Ok.code, px)
      else
        match dataSize w h with
        | none => (PluginError.SizeIsTooBig.code, px)
        | some _ => (PluginError.Ok.code, blurLoop config w h config.iterations px)

/-- Specification-side view of the box blur (§4.4 of the spec): the
neighbours of `(x, y)` inside the `[-r, r] × [-r, r]` window that lie inside
the image bounds. -/
def inBoundsNeighbors (w h r x y : ℕ) : List (ℤ × ℤ) :=
  (boxWindow r x y).filter (inBoundsB w h)

/-- Specification-side neighbour count of the box blur at `(x, y)`. -/
def neighborCount (w h r x y : ℕ) : ℕ := (inBoundsNeighbors w h r x y).length

/-- Specification-side neighbour sum of channel `c` of the box blur at
`(x, y)` (an unbounded mathematical sum, no `u32` wrap). -/
def neighborSum (w h r x y c : ℕ) (src : ℕ → ℕ) : ℕ :=
  ((inBoundsNeighbors w h r x y).map (fun p => src (pixIdx w p + c))).sum

end BlurPlugin

namespace MirrorPlugin

open PluginErrors

/-- `MirrorParams` of `src/mirror_plugin/src/lib.rs`. -/
structure MirrorParams where
  horizontal : Bool
  vertical : Bool
deriving DecidableEq

/-- `slice::swap i j` on a buffer modelled as a function: exchange the
values at indices `i` and `j`. -/
def swap2 (i j : ℕ) (f : ℕ → ℕ) : ℕ → ℕ :=
  fun k => if k = i then f j else if k = j then f i else f k

/-- Run a list of swaps left to right (the sequential in-place loop). -/
def foldSwaps (ps : List (ℕ × ℕ)) (f : ℕ → ℕ) : ℕ → ℕ :=
  ps.foldl (fun g p => swap2 p.1 p.2 g) f

/-- Two swap pairs touch disjoint sets of indices. -/
def pairDisj (p q : ℕ × ℕ) : Prop :=
  p.1 ≠ q.1 ∧ p.1 ≠ q.2 ∧ p.2 ≠ q.1 ∧ p.2 ≠ q.2

/-- The swaps performed by `mirror_horizontal`, in loop order: for each row
`y`, for `x in 0..width/2`, for channel `i in 0..4`, swap the bytes at
`row_start + left_idx + i` and `row_start + right_idx + i` with
`row_start = y*width*4`, `left_idx = x*4`, `right_idx = (width-1-x)*4`
(absolute indices of the row-relative `row.swap`). -/
def hPairs (w h : ℕ) : List (ℕ × ℕ) :=
  (List.range h).flatMap (fun y =>
    (List.range (w / 2)).flatMap (fun x =>
      (List.range 4).map (fun i =>
        (y * (w * 4) + (x * 4 + i), y * (w * 4) + ((w - 1 - x) * 4 + i)))))

/-- `mirror_horizontal` of `src/mirror_plugin/src/lib.rs`. -/
def mirror_horizontal (w h : ℕ) (px : ℕ → ℕ) : ℕ → ℕ := foldSwaps (hPairs w h) px

/-- The swaps performed by `mirror_vertical`, in loop order: for
`y in 0..height/2`, for `i in 0..row_size`, swap the bytes at
`y*row_size + i` and `(height-1-y)*row_size + i` with `row_size = width*4`. -/
def vPairs (w h : ℕ) : List (ℕ × ℕ) :=
  (List.range (h / 2)).flatMap (fun y =>
    (List.range (w * 4)).map (fun i =>
      (y * (w * 4) + i, (h - 1 - y) * (w * 4) + i)))

/-- `mirror_vertical` of `src/mirror_plugin/src/lib.rs`. -/
def mirror_vertical (w h : ℕ) (px : ℕ → ℕ) : ℕ → ℕ := foldSwaps (vPairs w h) px

/-- `process_image` of `src/mirror_plugin/src/lib.rs`, modelled like the
blur plugin's: null checks, parse, checked size, then the two optional
mirror passes (horizontal first, then vertical). -/
def process_image (w h : ℕ) (rgbaNull paramsNull : Bool)
    (parsed : Option MirrorParams) (px : ℕ → ℕ) : Int × (ℕ → ℕ) :=
  if rgbaNull || paramsNull then (PluginError.NullPointer.code, px)
  else
    match parsed with
    | none => (PluginError.InvalidParams.code, px)
    | some config =>
      match BlurPlugin.dataSize w h with
      | none => (PluginError.SizeIsTooBig.code, px)
      | some _ =>
        let px1 := if config.horizontal then mirror_horizontal w h px else px
        let px2 := if config.vertical then mirror_vertical w h px1 else px1
        (PluginError.Ok.code, px2)

end MirrorPlugin

/-- C3: every status code outside the published enumeration `{0, 1, 2}` is
mapped by `AppError::from_plugin_error_code` to the distinguishable
`PluginUnknownErrorCode` outcome carrying the raw code — in particular it is
neither `none` (success) nor any known error kind. -/
theorem C3_unknown_code_preserved (code : Int)
    (h0 : code ≠ 0) (h1 : code ≠ 1) (h2 : code ≠ 2) :
    ImageProcessor.AppError.from_plugin_error_code code
      = some (ImageProcessor.AppError.PluginUnknownErrorCode code) := by
  unfold ImageProcessor.AppError.from_plugin_error_code PluginErrors.PluginError.fromCode
  simp [h0, h1, h2]

/-- Witness for C3 at the concrete unknown code 7. -/
theorem C3_unknown_code_preserved_witness :
    ImageProcessor.AppError.from_plugin_error_code 7
      = some (ImageProcessor.AppError.PluginUnknownErrorCode 7) :=
  C3_unknown_code_preserved 7 (by decide) (by decide) (by decide)

/-- C8: `AppError::from_plugin_error_code` returns `none` (success) exactly
for the status code 0; every nonzero code yields `some` failure. -/
theorem C8_success_iff_zero (code : Int) :
    ImageProcessor.AppError.from_plugin_error_code code = none ↔ code = 0 := by
  unfold ImageProcessor.AppError.from_plugin_error_code PluginErrors.PluginError.fromCode
  by_cases h0 : code = 0 <;> by_cases h1 : code = 1 <;> by_cases h2 : code = 2 <;>
    simp [h0, h1, h2]

namespace MirrorPlugin

theorem swap2_swap2 (i j : ℕ) (f : ℕ → ℕ) : swap2 i j (swap2 i j f) = f := by
  funext k
  simp only [swap2]
  split_ifs <;> simp_all

theorem swap2_comm_of_disj {i j a b : ℕ} (f : ℕ → ℕ)
    (hia : i ≠ a) (hib : i ≠ b) (hja : j ≠ a) (hjb : j ≠ b) :
    swap2 i j (swap2 a b f) = swap2 a b (swap2 i j f) := by
  funext k
  simp only [swap2]
  split_ifs <;> simp_all

theorem swap2_foldSwaps_comm (ps : List (ℕ × ℕ)) (p : ℕ × ℕ) (f : ℕ → ℕ)
    (h : ∀ q ∈ ps, pairDisj p q) :
    swap2 p.1 p.2 (foldSwaps ps f) = foldSwaps ps (swap2 p.1 p.2 f) := by
  induction ps generalizing f with
  | nil => rfl
  | cons q ps ih =>
    have hq : pairDisj p q := h q (by simp)
    have hrest : ∀ x ∈ ps, pairDisj p x := fun x hx => h x (by simp [hx])
    show swap2 p.1 p.2 (foldSwaps ps (swap2 q.1 q.2 f))
        = foldSwaps ps (swap2 q.1 q.2 (swap2 p.1 p.2 f))
    rw [ih _ hrest, swap2_comm_of_disj f hq.1 hq.2.1 hq.2.2.1 hq.2.2.2]

theorem foldSwaps_invol (ps : List (ℕ × ℕ)) (f : ℕ → ℕ)
    (h : ps.Pairwise pairDisj) : foldSwaps ps (foldSwaps ps f) = f := by
  induction ps generalizing f with
  | nil => rfl
  | cons p ps ih =>
    rcases List.pairwise_cons.mp h with ⟨hp, hps⟩
    show foldSwaps ps (swap2 p.1 p.2 (foldSwaps ps (swap2 p.1 p.2 f))) = f
    rw [swap2_foldSwaps_comm ps p _ hp, swap2_swap2, ih _ hps]

theorem pairwise_flatMap_of {α β : Type} {R : β → β → Prop} {f : α → List β}
    {l : List α} (h1 : ∀ a ∈ l, (f a).Pairwise R)
    (h2 : l.Pairwise (fun a b => ∀ p ∈ f a, ∀ q ∈ f b, R p q)) :
    (l.flatMap f).Pairwise R := by
  induction l with
  | nil => simp
  | cons a l ih =>
    rcases List.pairwise_cons.mp h2 with ⟨ha, hl⟩
    rw [List.flatMap_cons, List.pairwise_append]
    refine ⟨h1 a (by simp), ih (fun x hx => h1 x (by simp [hx])) hl, ?_⟩
    intro x hx y hy
    rcases List.mem_flatMap.mp hy with ⟨b, hb, hyb⟩
    exact ha b hb x hx y hyb

theorem pairwise_range_of {S : ℕ → ℕ → Prop} :
    ∀ n : ℕ, (∀ a b, a < b → b < n → S a b) → (List.range n).Pairwise S
  | 0, _ => by simp
  | n + 1, h => by
    rw [List.range_succ, List.pairwise_append]
    refine ⟨pairwise_range_of n (fun a b hab hbn => h a b hab (by omega)), by simp, ?_⟩
    intro a ha b hb
    simp only [List.mem_range] at ha
    simp only [List.mem_singleton] at hb
    exact h a b (by omega) (by omega)

theorem row_lt {B q y y' : ℕ} (hq : q < B) (h : y < y') : y * B + q < y' * B :=
  calc y * B + q < (y + 1) * B := by rw [Nat.succ_mul]; omega
  _ ≤ y' * B := Nat.mul_le_mul_right B h

theorem row_base_ne {B q q' y y' : ℕ} (hq : q < B) (hq' : q' < B)
    (hyy : y ≠ y') : y * B + q ≠ y' * B + q' := by
  rcases Nat.lt_or_ge y y' with hlt | hge
  · have := row_lt hq hlt
    omega
  · have hlt : y' < y := by omega
    have := row_lt hq' hlt
    omega

theorem hchan_disj {b w x x' i i' : ℕ} (hx : x < w / 2) (hx' : x' < w / 2)
    (hne : x ≠ x' ∨ i ≠ i') (hi : i < 4) (hi' : i' < 4) :
    pairDisj (b + (x * 4 + i), b + ((w - 1 - x) * 4 + i))
      (b + (x' * 4 + i'), b + ((w - 1 - x') * 4 + i')) := by
  rcases hne with hne | hne <;> exact ⟨by omega, by omega, by omega, by omega⟩

theorem hrow_disj {w y y' : ℕ} (hyy : y ≠ y') {e1 e2 e1' e2' : ℕ}
    (h1 : e1 < w * 4) (h2 : e2 < w * 4) (h1' : e1' < w * 4) (h2' : e2' < w * 4) :
    pairDisj (y * (w * 4) + e1, y * (w * 4) + e2)
      (y' * (w * 4) + e1', y' * (w * 4) + e2') :=
  ⟨row_base_ne h1 h1' hyy, row_base_ne h1 h2' hyy,
    row_base_ne h2 h1' hyy, row_base_ne h2 h2' hyy⟩

theorem hPairs_pairwise (w h : ℕ) : (hPairs w h).Pairwise pairDisj := by
  unfold hPairs
  apply pairwise_flatMap_of
  · intro y hy
    apply pairwise_flatMap_of
    · intro x hx
      simp only [List.mem_range] at hx
      rw [List.pairwise_map]
      apply pairwise_range_of
      intro i i' hii hi'
      exact hchan_disj hx hx (Or.inr (by omega)) (by omega) hi'
    · apply pairwise_range_of
      intro x x' hxx hx'
      intro p hp q hq
      simp only [List.mem_map, List.mem_range] at hp hq
      rcases hp with ⟨i, hi, rfl⟩
      rcases hq with ⟨i', hi', rfl⟩
      exact hchan_disj (by omega) hx' (Or.inl (by omega)) hi hi'
  · apply pairwise_range_of
    intro y y' hyy hy'
    intro p hp q hq
    simp only [List.mem_flatMap, List.mem_map, List.mem_range] at hp hq
    rcases hp with ⟨x, hx, i, hi, rfl⟩
    rcases hq with ⟨x', hx', i', hi', rfl⟩
    exact hrow_disj (by omega) (by omega) (by omega) (by omega) (by omega)

theorem vchan_disj {w h y : ℕ} (hy : y < h / 2) {i i' : ℕ} (hne : i ≠ i')
    (hi : i < w * 4) (hi' : i' < w * 4) :
    pairDisj (y * (w * 4) + i, (h - 1 - y) * (w * 4) + i)
      (y * (w * 4) + i', (h - 1 - y) * (w * 4) + i') := by
  have hrow : y ≠ h - 1 - y := by omega
  exact ⟨by omega, row_base_ne hi hi' hrow, row_base_ne hi hi' (Ne.symm hrow), by omega⟩

theorem vrow_disj {w h y y' : ℕ} (hy : y < h / 2) (hy' : y' < h / 2)
    (hyy : y ≠ y') {i i' : ℕ} (hi : i < w * 4) (hi' : i' < w * 4) :
    pairDisj (y * (w * 4) + i, (h - 1 - y) * (w * 4) + i)
      (y' * (w * 4) + i', (h - 1 - y') * (w * 4) + i') :=
  ⟨row_base_ne hi hi' hyy, row_base_ne hi hi' (by omega),
    row_base_ne hi hi' (by omega), row_base_ne hi hi' (by omega)⟩

theorem vPairs_pairwise (w h : ℕ) : (vPairs w h).Pairwise pairDisj := by
  unfold vPairs
  apply pairwise_flatMap_of
  · intro y hy
    simp only [List.mem_range] at hy
    rw [List.pairwise_map]
    apply pairwise_range_of
    intro i i' hii hi'
    exact vchan_disj hy (by omega) (by omega) hi'
  · apply pairwise_range_of
    intro y y' hyy hy'
    intro p hp q hq
    simp only [List.mem_map, List.mem_range] at hp hq
    rcases hp with ⟨i, hi, rfl⟩
    rcases hq with ⟨i', hi', rfl⟩
    exact vrow_disj (by omega) hy' (by omega) hi hi'

end MirrorPlugin

/-- C7: applying `mirror_horizontal` twice restores the buffer, and likewise
`mirror_vertical`: both mirrors are involutions (for every buffer, hence in
particular for buffers of exactly `width * height * 4` bytes). -/
theorem C7_mirror_involution (w h : ℕ) (px : ℕ → ℕ) :
    MirrorPlugin.mirror_horizontal w h (MirrorPlugin.mirror_horizontal w h px) = px ∧
    MirrorPlugin.mirror_vertical w h (MirrorPlugin.mirror_vertical w h px) = px :=
  ⟨MirrorPlugin.foldSwaps_invol _ _ (MirrorPlugin.hPairs_pairwise w h),
    MirrorPlugin.foldSwaps_invol _ _ (MirrorPlugin.vPairs_pairwise w h)⟩

/-- C5: on the blur plugin, non-null pointers and a successfully decoded
configuration with `radius == 0` or `iterations == 0` leave the buffer
byte-for-byte unchanged and return the success status code 0. -/
theorem C5_zero_config_noop (w h : ℕ) (config : BlurPlugin.BlurParams)
    (px : ℕ → ℕ) (hz : config.radius = 0 ∨ config.iterations = 0) :
    BlurPlugin.process_image w h false false (some config) px = (0, px) := by
  unfold BlurPlugin.process_image
  simp [hz, PluginErrors.PluginError.code]

/-- Witness for C5: a 3×2 image, radius 0, 7 iterations, weighted. -/
theorem C5_zero_config_noop_witness :
    ((0 : ℕ) = 0 ∨ (7 : ℕ) = 0) ∧
    BlurPlugin.process_image 3 2 false false (some ⟨0, 7, true⟩) (fun i => i)
      = (0, fun i => i) :=
  ⟨Or.inl rfl, C5_zero_config_noop 3 2 ⟨0, 7, true⟩ (fun i => i) (Or.inl rfl)⟩

/-- C10: on the mirror plugin, non-null pointers, a decoded configuration
with both flags false, and a non-overflowing size return success and leave
the buffer byte-for-byte unchanged. -/
theorem C10_no_flags_noop (w h : ℕ) (px : ℕ → ℕ) (s : ℕ)
    (hs : BlurPlugin.dataSize w h = some s) :
    MirrorPlugin.process_image w h false false (some ⟨false, false⟩) px = (0, px) := by
  unfold MirrorPlugin.process_image
  simp [hs, PluginErrors.PluginError.code]

/-- Witness for C10 at a 1×1 image. -/
theorem C10_no_flags_noop_witness :
    BlurPlugin.dataSize 1 1 = some 4 ∧
    MirrorPlugin.process_image 1 1 false false (some ⟨false, false⟩) (fun i => i)
      = (0, fun i => i) :=
  ⟨by decide, C10_no_flags_noop 1 1 (fun i => i) 4 (by decide)⟩

/-- C2 counterexample: at `width = height = 0xFFFFFFFF` the size
`width * height * 4` overflows (`dataSize` is `none`), yet the blur plugin
with the valid configuration `radius = 0, iterations = 1, weighted = false`
returns the success code 0, not the size-too-large code — the claim's
"for every configuration value (including radius == 0 or iterations == 0)"
fails, because the `radius == 0 || iterations == 0` early return precedes
the overflow check. -/
theorem C2_counterexample :
    BlurPlugin.dataSize 4294967295 4294967295 = none ∧
    (BlurPlugin.process_image 4294967295 4294967295 false false
        (some ⟨0, 1, false⟩) (fun _ => 0)).1 = 0 ∧
    (BlurPlugin.process_image 4294967295 4294967295 false false
        (some ⟨0, 1, false⟩) (fun _ => 0)).1
      ≠ PluginErrors.PluginError.SizeIsTooBig.code := by
  refine ⟨by decide, rfl, by decide⟩

/-- C2 (amended): when `width * height * 4` overflows, both plugins'
`process_image` (with non-null pointers and decoding parameter text) return
the size-too-large status code — for every mirror configuration, and for
every blur configuration with `radius ≠ 0` and `iterations ≠ 0` (the blur
plugin returns success before the size check otherwise, see the
counterexample). -/
theorem C2_overflow_size_too_large (w h : ℕ) (configB : BlurPlugin.BlurParams)
    (configM : MirrorPlugin.MirrorParams) (px : ℕ → ℕ)
    (hover : BlurPlugin.dataSize w h = none)
    (hr : configB.radius ≠ 0) (hi : configB.iterations ≠ 0) :
    (BlurPlugin.process_image w h false false (some configB) px).1
        = PluginErrors.PluginError.SizeIsTooBig.code ∧
    (MirrorPlugin.process_image w h false false (some configM) px).1
        = PluginErrors.PluginError.SizeIsTooBig.code := by
  constructor
  · unfold BlurPlugin.process_image
    have hz : ¬(configB.radius = 0 ∨ configB.iterations = 0) := by tauto
    simp [hz, hover]
  · unfold MirrorPlugin.process_image
    simp [hover]

/-- Witness for C2 (amended) at `width = height = 0xFFFFFFFF`. -/
theorem C2_overflow_size_too_large_witness :
    BlurPlugin.dataSize 4294967295 4294967295 = none ∧ (1 : ℕ) ≠ 0 ∧
    (BlurPlugin.process_image 4294967295 4294967295 false false
        (some ⟨1, 1, false⟩) (fun _ => 0)).1
      = PluginErrors.PluginError.SizeIsTooBig.code ∧
    (MirrorPlugin.process_image 4294967295 4294967295 false false
        (some ⟨true, true⟩) (fun _ => 0)).1
      = PluginErrors.PluginError.SizeIsTooBig.code := by
  refine ⟨by decide, by decide, ?_, ?_⟩
  · exact (C2_overflow_size_too_large 4294967295 4294967295 ⟨1, 1, false⟩
      ⟨true, true⟩ (fun _ => 0) (by decide) (by decide) (by decide)).1
  · exact (C2_overflow_size_too_large 4294967295 4294967295 ⟨1, 1, false⟩
      ⟨true, true⟩ (fun _ => 0) (by decide) (by decide) (by decide)).2

/-- C1: the application loop of `apply_weighted_blur` does NOT cover the
full square window: at radius 1 the offset `(dy, dx) = (0, 1)` belongs to
the square `[-1, 1] × [-1, 1]` (it is swept by the kernel-generation loops,
`fullSquareWindow`) but is never visited by the accumulation loops
(`weightedSampleWindow`, whose inner bound is `ky` instead of `radius`).
This supports the code_bug verdict: the code's triangular sweep contradicts
the spec's full symmetric square kernel. -/
theorem C1_weighted_window_triangular :
    ((0 : ℤ), (1 : ℤ)) ∈ BlurPlugin.fullSquareWindow 1 ∧
    ((0 : ℤ), (1 : ℤ)) ∉ BlurPlugin.weightedSampleWindow 1 ∧
    BlurPlugin.weightedSampleWindow 1 ≠ BlurPlugin.fullSquareWindow 1 := by
  refine ⟨by decide, by decide, by decide⟩

namespace BlurPlugin

theorem boxStep_foldl (w h : ℕ) (src : ℕ → ℕ) (l : List (ℤ × ℤ)) :
    ∀ acc : BoxAcc, acc.r_acc < 2 ^ 32 → acc.g_acc < 2 ^ 32 → acc.b_acc < 2 ^ 32 →
      acc.count < 2 ^ 32 →
      l.foldl (boxStep w h src) acc =
        ⟨(acc.r_acc + ((l.filter (inBoundsB w h)).map (fun p => src (pixIdx w p))).sum) % 2 ^ 32,
          (acc.g_acc + ((l.filter (inBoundsB w h)).map (fun p => src (pixIdx w p + 1))).sum) % 2 ^ 32,
          (acc.b_acc + ((l.filter (inBoundsB w h)).map (fun p => src (pixIdx w p + 2))).sum) % 2 ^ 32,
          (acc.count + (l.filter (inBoundsB w h)).length) % 2 ^ 32⟩ := by
  induction l with
  | nil =>
    intro acc h1 h2 h3 h4
    simp only [List.foldl_nil, List.filter_nil, List.map_nil, List.sum_nil, List.length_nil,
      Nat.add_zero]
    rw [Nat.mod_eq_of_lt h1, Nat.mod_eq_of_lt h2, Nat.mod_eq_of_lt h3, Nat.mod_eq_of_lt h4]
  | cons p l ih =>
    intro acc h1 h2 h3 h4
    rw [List.foldl_cons]
    by_cases hp : inBoundsB w h p
    · have hstep : boxStep w h src acc p =
          ⟨u32add acc.r_acc (src (pixIdx w p)), u32add acc.g_acc (src (pixIdx w p + 1)),
            u32add acc.b_acc (src (pixIdx w p + 2)), u32add acc.count 1⟩ := by
        simp [boxStep, hp]
      rw [hstep, ih _ (Nat.mod_lt _ (by norm_num)) (Nat.mod_lt _ (by norm_num))
        (Nat.mod_lt _ (by norm_num)) (Nat.mod_lt _ (by norm_num))]
      simp only [List.filter_cons, hp, if_pos, List.map_cons, List.sum_cons, List.length_cons,
        BoxAcc.mk.injEq, u32add]
      refine ⟨?_, ?_, ?_, ?_⟩ <;> omega
    · have hstep : boxStep w h src acc p = acc := by simp [boxStep, hp]
      rw [hstep, ih _ h1 h2 h3 h4]
      simp [List.filter_cons, hp]

theorem boxAccum_eq (w h r : ℕ) (src : ℕ → ℕ) (x y : ℕ) :
    boxAccum w h r src x y =
      ⟨neighborSum w h r x y 0 src % 2 ^ 32, neighborSum w h r x y 1 src % 2 ^ 32,
        neighborSum w h r x y 2 src % 2 ^ 32, neighborCount w h r x y % 2 ^ 32⟩ := by
  unfold boxAccum neighborSum neighborCount inBoundsNeighbors
  rw [boxStep_foldl w h src _ ⟨0, 0, 0, 0⟩ (by norm_num) (by norm_num) (by norm_num)
    (by norm_num)]
  simp

theorem boxAccum_count (w h r : ℕ) (src : ℕ → ℕ) (x y : ℕ) :
    (boxAccum w h r src x y).count = neighborCount w h r x y % 2 ^ 32 := by
  rw [boxAccum_eq]

theorem mem_intRange {t a b : ℤ} : t ∈ intRange a b ↔ a ≤ t ∧ t ≤ b := by
  unfold intRange
  simp only [List.mem_map, List.mem_range]
  constructor
  · rintro ⟨i, hi, rfl⟩
    omega
  · intro ht
    exact ⟨(t - a).toNat, by omega, by omega⟩

theorem center_mem_neighbors (w h r x y : ℕ) (hx : x < w) (hy : y < h) :
    ((y : ℤ), (x : ℤ)) ∈ inBoundsNeighbors w h r x y := by
  unfold inBoundsNeighbors boxWindow
  rw [List.mem_filter]
  constructor
  · rw [List.mem_flatMap]
    refine ⟨(y : ℤ), mem_intRange.mpr ⟨by omega, by omega⟩, ?_⟩
    rw [List.mem_map]
    exact ⟨(x : ℤ), mem_intRange.mpr ⟨by omega, by omega⟩, rfl⟩
  · simp only [inBoundsB, Bool.and_eq_true, decide_eq_true_eq]
    refine ⟨⟨⟨by omega, by omega⟩, by omega⟩, by omega⟩

theorem neighborCount_pos (w h r x y : ℕ) (hx : x < w) (hy : y < h) :
    0 < neighborCount w h r x y :=
  List.length_pos.mpr (List.ne_nil_of_mem (center_mem_neighbors w h r x y hx hy))

theorem sum_map_le (l : List (ℤ × ℤ)) (f : ℤ × ℤ → ℕ) (hb : ∀ p, f p ≤ 255) :
    (l.map f).sum ≤ 255 * l.length := by
  induction l with
  | nil => simp
  | cons p l ih =>
    simp only [List.map_cons, List.sum_cons, List.length_cons]
    have := hb p
    omega

theorem sum_map_const_val (l : List (ℤ × ℤ)) (f : ℤ × ℤ → ℕ) (v : ℕ) (hf : ∀ p, f p = v) :
    (l.map f).sum = v * l.length := by
  induction l with
  | nil => simp
  | cons p l ih =>
    simp only [List.map_cons, List.sum_cons, List.length_cons, ih, hf p, Nat.mul_succ]
    omega

theorem filter_flatMap {α β : Type} (l : List α) (f : α → List β) (p : β → Bool) :
    (l.flatMap f).filter p = l.flatMap (fun a => (f a).filter p) := by
  induction l with
  | nil => rfl
  | cons a l ih => simp [List.flatMap_cons, List.filter_append, ih]

theorem sum_if_mul {α : Type} (P : α → Bool) (K : ℕ) (l : List α) :
    (l.map (fun a => if P a then K else 0)).sum = (l.filter P).length * K := by
  induction l with
  | nil => simp
  | cons a l ih =>
    simp only [List.map_cons, List.sum_cons, List.filter_cons, ih]
    by_cases hP : P a
    · simp only [hP, if_pos, List.length_cons, Nat.succ_mul]
      omega
    · simp [hP]

theorem length_filter_range_shift (a m : ℤ) :
    ∀ n : ℕ,
      ((List.range n).filter
          (fun i : ℕ => decide (0 ≤ a + (i : ℤ)) && decide (a + (i : ℤ) < m))).length
        = (min (a + n) m - max a 0).toNat
  | 0 => by
    simp only [List.range_zero, List.filter_nil, List.length_nil, Nat.cast_zero]
    omega
  | n + 1 => by
    rw [List.range_succ, List.filter_append, List.length_append,
      length_filter_range_shift a m n]
    simp only [List.filter_cons, List.filter_nil]
    by_cases h1 : 0 ≤ a + (n : ℤ)
    · by_cases h2 : a + (n : ℤ) < m
      · simp only [h1, h2]
        simp
        omega
      · simp only [h2]
        simp
        omega
    · simp only [h1]
      simp
      omega

theorem length_filter_intRange (a b m : ℤ) :
    ((intRange a b).filter (fun t => decide (0 ≤ t) && decide (t < m))).length
      = (min (b + 1) m - max a 0).toNat := by
  unfold intRange
  rw [List.filter_map, List.length_map]
  have hcomp : ((fun t => decide (0 ≤ t) && decide (t < m)) ∘ fun i : ℕ => a + (i : ℤ))
      = fun i : ℕ => decide (0 ≤ a + (i : ℤ)) && decide (a + (i : ℤ) < m) := by
    funext i
    simp [Function.comp_apply]
  rw [hcomp, length_filter_range_shift a m ((b + 1 - a).toNat)]
  omega

theorem filter_pair_row (w h : ℕ) (ky : ℤ) (kxs : List ℤ) :
    ((kxs.map (fun kx => (ky, kx))).filter (inBoundsB w h)).length
      = if decide (0 ≤ ky) && decide (ky < (h : ℤ)) then
          (kxs.filter (fun t => decide (0 ≤ t) && decide (t < (w : ℤ)))).length
        else 0 := by
  rw [List.filter_map, List.length_map]
  by_cases hky : (decide (0 ≤ ky) && decide (ky < (h : ℤ))) = true
  · rw [if_pos hky]
    congr 1
    apply List.filter_congr
    intro t ht
    simp only [Bool.and_eq_true, decide_eq_true_eq] at hky
    show inBoundsB w h (ky, t) = _
    simp [inBoundsB, hky.1, hky.2]
  · rw [if_neg hky]
    rw [List.length_eq_zero, List.filter_eq_nil_iff]
    intro t ht
    simp only [Bool.and_eq_true, decide_eq_true_eq] at hky
    show ¬ inBoundsB w h (ky, t) = true
    dsimp only [inBoundsB]
    simp only [Bool.and_eq_true, decide_eq_true_eq]
    intro hcon
    exact hky ⟨hcon.1.1.1, hcon.1.1.2⟩

theorem neighborCount_eq (w h r x y : ℕ) :
    neighborCount w h r x y
      = (min ((y : ℤ) + r + 1) h - max ((y : ℤ) - r) 0).toNat
        * (min ((x : ℤ) + r + 1) w - max ((x : ℤ) - r) 0).toNat := by
  unfold neighborCount inBoundsNeighbors boxWindow
  rw [filter_flatMap, List.length_flatMap]
  simp only [Function.comp_def]
  rw [List.map_congr_left (fun ky _ => filter_pair_row w h ky
    (intRange ((x : ℤ) - r) ((x : ℤ) + r)))]
  rw [sum_if_mul, length_filter_intRange, length_filter_intRange]

end BlurPlugin

namespace BlurPlugin

theorem idx_div4 (y w x c : ℕ) (hc : c < 4) : ((y * w + x) * 4 + c) / 4 = y * w + x := by
  omega

theorem idx_mod4 (y w x c : ℕ) (hc : c < 4) : ((y * w + x) * 4 + c) % 4 = c := by
  omega

theorem idx_x (w x y : ℕ) (hx : x < w) : (y * w + x) % w = x := by
  have hcomm : y * w + x = x + w * y := by ring
  rw [hcomm, Nat.add_mul_mod_self_left, Nat.mod_eq_of_lt hx]

theorem idx_y (w x y : ℕ) (hx : x < w) : (y * w + x) / w = y := by
  have hw : 0 < w := by omega
  have hcomm : y * w + x = x + w * y := by ring
  rw [hcomm, Nat.add_mul_div_left _ _ hw, Nat.div_eq_of_lt hx, Nat.zero_add]

theorem idx_lt (w h x y c : ℕ) (hx : x < w) (hy : y < h) (hc : c < 4) :
    (y * w + x) * 4 + c < w * h * 4 := by
  have h1 : y * w + x + 1 ≤ h * w := by
    calc y * w + x + 1 ≤ y * w + w := by omega
    _ = (y + 1) * w := by ring
    _ ≤ h * w := Nat.mul_le_mul_right w (by omega)
  calc (y * w + x) * 4 + c < (y * w + x + 1) * 4 := by omega
  _ ≤ h * w * 4 := Nat.mul_le_mul_right 4 h1
  _ = w * h * 4 := by ring

theorem neighborSum_const (w h r x y c v : ℕ) :
    neighborSum w h r x y c (fun _ => v) = v * neighborCount w h r x y := by
  unfold neighborSum neighborCount
  exact sum_map_const_val _ _ v (fun p => rfl)

theorem alpha_key (w i : ℕ) (hi : i % 4 = 3) :
    (i / 4 / w * w + i / 4 % w) * 4 + 3 = i := by
  have h1 := Nat.div_add_mod (i / 4) w
  have h2 := Nat.div_add_mod i 4
  calc (i / 4 / w * w + i / 4 % w) * 4 + 3
      = (w * (i / 4 / w) + i / 4 % w) * 4 + 3 := by ring_nf
  _ = i / 4 * 4 + 3 := by rw [h1]
  _ = i := by omega

theorem blurStep_alpha (config : BlurParams) (w h : ℕ) (px : ℕ → ℕ) (i : ℕ)
    (hi : i % 4 = 3) : blurStep config w h px i = px i := by
  simp only [blurStep]
  by_cases hlt : i < w * h * 4
  · rw [if_pos hlt]
    have key := alpha_key w i hi
    by_cases hw : config.weighted
    · rw [if_pos hw]
      simp only [apply_weighted_blur]
      rw [if_pos hlt]
      simp only [weightedPixel, hi]
      norm_num
      rw [key]
    · rw [if_neg hw]
      simp only [apply_box_blur]
      rw [if_pos hlt]
      simp only [boxPixel, hi]
      norm_num
      rw [key]
  · rw [if_neg hlt]

theorem blurLoop_alpha (config : BlurParams) (w h : ℕ) :
    ∀ (n : ℕ) (px : ℕ → ℕ) (i : ℕ), i % 4 = 3 → blurLoop config w h n px i = px i
  | 0, px, i, hi => rfl
  | n + 1, px, i, hi => by
    show blurLoop config w h n (blurStep config w h px) i = px i
    rw [blurLoop_alpha config w h n (blurStep config w h px) i hi,
      blurStep_alpha config w h px i hi]

end BlurPlugin

/-- C4 (amended): one box-blur pass writes, at each colour channel of each
pixel, the truncating quotient of the mathematical neighbour sum by the
neighbour count over exactly the in-bounds neighbours — provided the image
is a byte buffer and the window is small enough that the 32-bit
accumulators cannot wrap (`255 * count < 2^32`); the unamended claim fails
for larger windows, see the counterexample. -/
theorem C4_box_blur_average (w h r x y c : ℕ) (src : ℕ → ℕ)
    (hx : x < w) (hy : y < h) (hc : c < 3) (hbyte : ∀ i, src i < 256)
    (hnw : 255 * BlurPlugin.neighborCount w h r x y < 2 ^ 32) :
    BlurPlugin.apply_box_blur w h r src ((y * w + x) * 4 + c)
      = BlurPlugin.neighborSum w h r x y c src / BlurPlugin.neighborCount w h r x y := by
  have hcount_pos := BlurPlugin.neighborCount_pos w h r x y hx hy
  have hcount_lt : BlurPlugin.neighborCount w h r x y < 2 ^ 32 := by omega
  have hsum_le : BlurPlugin.neighborSum w h r x y c src
      ≤ 255 * BlurPlugin.neighborCount w h r x y := by
    unfold BlurPlugin.neighborSum BlurPlugin.neighborCount
    exact BlurPlugin.sum_map_le _ _
      (fun p => by have := hbyte (BlurPlugin.pixIdx w p + c); omega)
  have hsum_lt : BlurPlugin.neighborSum w h r x y c src < 2 ^ 32 := by omega
  have hq : BlurPlugin.neighborSum w h r x y c src
      / BlurPlugin.neighborCount w h r x y ≤ 255 := by
    calc BlurPlugin.neighborSum w h r x y c src / BlurPlugin.neighborCount w h r x y
        ≤ 255 * BlurPlugin.neighborCount w h r x y / BlurPlugin.neighborCount w h r x y :=
          Nat.div_le_div_right hsum_le
    _ = 255 := Nat.mul_div_cancel 255 hcount_pos
  simp only [BlurPlugin.apply_box_blur]
  rw [if_pos (BlurPlugin.idx_lt w h x y c hx hy (by omega))]
  rw [BlurPlugin.idx_div4 y w x c (by omega), BlurPlugin.idx_mod4 y w x c (by omega)]
  rw [BlurPlugin.idx_x w x y hx, BlurPlugin.idx_y w x y hx]
  simp only [BlurPlugin.boxPixel]
  rw [BlurPlugin.boxAccum_eq]
  interval_cases c
  · rw [if_pos rfl]
    show BlurPlugin.u8cast (BlurPlugin.neighborSum w h r x y 0 src % 2 ^ 32
      / (BlurPlugin.neighborCount w h r x y % 2 ^ 32)) = _
    rw [Nat.mod_eq_of_lt hsum_lt, Nat.mod_eq_of_lt hcount_lt]
    exact Nat.mod_eq_of_lt (by omega)
  · rw [if_neg (by decide), if_pos rfl]
    show BlurPlugin.u8cast (BlurPlugin.neighborSum w h r x y 1 src % 2 ^ 32
      / (BlurPlugin.neighborCount w h r x y % 2 ^ 32)) = _
    rw [Nat.mod_eq_of_lt hsum_lt, Nat.mod_eq_of_lt hcount_lt]
    exact Nat.mod_eq_of_lt (by omega)
  · rw [if_neg (by decide), if_neg (by decide), if_pos rfl]
    show BlurPlugin.u8cast (BlurPlugin.neighborSum w h r x y 2 src % 2 ^ 32
      / (BlurPlugin.neighborCount w h r x y % 2 ^ 32)) = _
    rw [Nat.mod_eq_of_lt hsum_lt, Nat.mod_eq_of_lt hcount_lt]
    exact Nat.mod_eq_of_lt (by omega)

/-- Witness for C4 (amended) on a 1×1 image with radius 0. -/
theorem C4_box_blur_average_witness :
    (0 : ℕ) < 1 ∧ 255 * BlurPlugin.neighborCount 1 1 0 0 0 < 2 ^ 32 ∧
    BlurPlugin.apply_box_blur 1 1 0 (fun _ => 5) ((0 * 1 + 0) * 4 + 0)
      = BlurPlugin.neighborSum 1 1 0 0 0 0 (fun _ => 5)
        / BlurPlugin.neighborCount 1 1 0 0 0 :=
  ⟨by decide, by decide,
    C4_box_blur_average 1 1 0 0 0 0 (fun _ => 5) (by decide) (by decide) (by decide)
      (fun i => by norm_num) (by decide)⟩

/-- C4 counterexample: on a 4105×4105 all-255 image with radius 4104, the
pixel (0,0) has 4105² = 16851025 in-bounds neighbours, so the true channel
average is 255, but the `u32` accumulator wraps
(255·16851025 = 4297011375 ≥ 2^32) and the code computes
(4297011375 mod 2^32) / 16851025 = 0: the written red channel is not
`sum / count`. -/
theorem C4_counterexample :
    BlurPlugin.apply_box_blur 4105 4105 4104 (fun _ => 255) ((0 * 4105 + 0) * 4 + 0)
      ≠ BlurPlugin.neighborSum 4105 4105 4104 0 0 0 (fun _ => 255)
        / BlurPlugin.neighborCount 4105 4105 4104 0 0 := by
  have hcount : BlurPlugin.neighborCount 4105 4105 4104 0 0 = 16851025 := by
    rw [BlurPlugin.neighborCount_eq]
    norm_num
    decide
  have hsum : BlurPlugin.neighborSum 4105 4105 4104 0 0 0 (fun _ => 255) = 4297011375 := by
    rw [BlurPlugin.neighborSum_const, hcount]
  have hL : BlurPlugin.apply_box_blur 4105 4105 4104 (fun _ => 255)
      ((0 * 4105 + 0) * 4 + 0) = 0 := by
    simp only [BlurPlugin.apply_box_blur]
    rw [show (0 * 4105 + 0) * 4 + 0 = 0 by norm_num]
    rw [if_pos (show 0 < 4105 * 4105 * 4 by norm_num)]
    norm_num
    simp only [BlurPlugin.boxPixel]
    rw [BlurPlugin.boxAccum_eq, if_pos trivial, hsum, hcount]
    norm_num [BlurPlugin.u8cast]
  rw [hL, hsum, hcount]
  norm_num

/-- C9 (amended): for every image with `width > 0` and `height > 0` and
every processed pixel, the in-bounds neighbour count is at least 1 (the
centre pixel is in bounds), and provided fewer than `2^32` neighbours are in
bounds (so the `u32` counter cannot wrap) the accumulated `count` is
positive, hence `sum / count` never divides by zero. -/
theorem C9_count_positive (w h r x y : ℕ) (src : ℕ → ℕ) (hx : x < w) (hy : y < h)
    (hlt : BlurPlugin.neighborCount w h r x y < 2 ^ 32) :
    0 < (BlurPlugin.boxAccum w h r src x y).count := by
  rw [BlurPlugin.boxAccum_eq]
  show 0 < BlurPlugin.neighborCount w h r x y % 2 ^ 32
  rw [Nat.mod_eq_of_lt hlt]
  exact BlurPlugin.neighborCount_pos w h r x y hx hy

/-- Witness for C9 (amended) on a 1×1 image with radius 2. -/
theorem C9_count_positive_witness :
    (0 : ℕ) < 1 ∧ BlurPlugin.neighborCount 1 1 2 0 0 < 2 ^ 32 ∧
    0 < (BlurPlugin.boxAccum 1 1 2 (fun _ => 0) 0 0).count :=
  ⟨by decide, by decide,
    C9_count_positive 1 1 2 0 0 (fun _ => 0) (by decide) (by decide) (by decide)⟩

/-- C9 counterexample: on a 65536×65536 image with radius 65535, pixel
(0,0) has exactly 65536² = 2^32 in-bounds neighbours (at least one — the
claim's premise holds), yet the `u32` counter wraps to exactly 0, so the
divisions `sum / count` do divide by zero (in Rust, a panic). -/
theorem C9_counterexample :
    0 < BlurPlugin.neighborCount 65536 65536 65535 0 0 ∧
    (BlurPlugin.boxAccum 65536 65536 65535 (fun _ => 0) 0 0).count = 0 := by
  have hcount : BlurPlugin.neighborCount 65536 65536 65535 0 0 = 4294967296 := by
    rw [BlurPlugin.neighborCount_eq]
    norm_num
    decide
  constructor
  · rw [hcount]
    norm_num
  · rw [BlurPlugin.boxAccum_count, hcount]
    norm_num

/-- C6: the blur plugin preserves the alpha byte of every pixel exactly,
for every configuration (any radius, any number of iterations, weighted or
not) and every call path of `process_image` (early returns included). -/
theorem C6_alpha_preserved (w h : ℕ) (rgbaNull paramsNull : Bool)
    (parsed : Option BlurPlugin.BlurParams) (px : ℕ → ℕ) (i : ℕ) (hi : i % 4 = 3) :
    (BlurPlugin.process_image w h rgbaNull paramsNull parsed px).2 i = px i := by
  simp only [BlurPlugin.process_image]
  by_cases hn : (rgbaNull || paramsNull) = true
  · rw [if_pos hn]
  · rw [if_neg hn]
    cases parsed with
    | none => rfl
    | some config =>
      by_cases hz : config.radius = 0 ∨ config.iterations = 0
      · simp [hz]
      · cases hds : BlurPlugin.dataSize w h with
        | none => simp [hz, hds]
        | some s =>
          simp [hz, hds]
          exact BlurPlugin.blurLoop_alpha config w h config.iterations px i hi

/-- Witness for C6 at alpha index 7 of a 2×1 box-blur call. -/
theorem C6_alpha_preserved_witness :
    (7 : ℕ) % 4 = 3 ∧
    (BlurPlugin.process_image 2 1 false false (some ⟨1, 2, false⟩) (fun _ => 9)).2 7 = 9 :=
  ⟨by decide,
    C6_alpha_preserved 2 1 false false (some ⟨1, 2, false⟩) (fun _ => 9) 7 (by decide)⟩
